import Mathlib

/-!
Verification of the data access and transformation layer of a small
baseball-statistics dashboard (`logic.py`).

The embedding is shallow:

* a pandas `DataFrame` holding the dataset becomes `Table := List Record`,
  where `Record` is one row with the eight required columns;
* a raw CSV file (before schema validation) becomes `RawCsv`, a column-name
  list together with its typed row data; schema validation inspects only the
  column list, exactly as `_read_csv_strict` and `import_uploaded_csv` do;
* the ambient file system (the canonical source `npb_stats.csv` and the
  append-only history log `records.csv`) becomes an explicit `World` value
  threaded through the effectful operations; `World.db = none` models the
  history file not existing yet;
* Python `float` is modelled as `Rat`; Python exceptions become
  `Except String`, carrying the exact message the code formats (the message
  model renders a Python list `[a, b]` without the quotes of `repr`);
* `datetime.now().strftime(...)` is modelled as a `stamp : String` parameter
  supplied once per call of `snapshot_to_db`, matching the code computing the
  timestamp a single time before the per-row insertion;
* `DataFrame.sort_values` runs with the pandas default quicksort kind, for
  which pandas documents only that the rows come back reordered in key order;
  tie order is unspecified (only the mergesort and stable kinds are
  documented stable). `filter_table` is therefore modelled as the relation
  between its input and every admissible return value: a `WinRate`-descending
  permutation of the filtered rows. The helpers `teams` and `team_trend` use
  a concrete sort function, and every property proved about them is
  independent of the sort kind;
* the history log is modelled at the encoding level as BOM-tagged chunks.
  CPython TextIOWrapper initialises the incremental utf-8-sig encoder with
  its BOM already emitted whenever a writable seekable stream is opened at a
  nonzero position, so `to_csv(mode="a", encoding="utf-8-sig")` on the
  existing non-empty log writes no BOM; the one BOM written when the log is
  created sits at stream start, where the pandas CSV parser consumes it.
  The model (`Chunk.bom`, `taint`) can express a mid-file BOM corrupting the
  first `_saved_at` cell of an appended block, and the definitions show the
  code never produces one;
* float NaN is modelled for the loader by `Flt := Option Rat` (`none` is
  NaN): `astype(float)` keeps NaN and `Series.clip(0, 1)` leaves NaN
  unchanged, so `load_source` can return a NaN `WinRate`, which IEEE
  comparisons place outside `[0, 1]`. The coarser `Record.winRate : Rat` is
  exact for NaN-free tables and carries the query-layer claims.
-/

/-- Record is one row of the dataset: the eight required columns of
`NEEDED_COLS`, with the types `load_source` coerces them to. The rational
`winRate` models a NaN-free float value; the loader refinement below uses
`Flt` to cover NaN cells. -/
structure Record where
  year : Int
  league : String
  team : String
  games : Int
  wins : Int
  losses : Int
  draws : Int
  winRate : Rat
deriving DecidableEq

/-- Table is an ordered collection of records, the model of a `DataFrame`
restricted to the required columns. -/
abbrev Table := List Record

/-- RawCsv models the result of `pd.read_csv` before schema validation: the
column-name list of the file together with its row data. -/
structure RawCsv where
  columns : List String
  rows : List Record
deriving DecidableEq

/-- HistoryRow models one data row of the history log `records.csv`: the two
prepended columns `_saved_at` and `_meta` followed by the record columns. -/
structure HistoryRow where
  savedAt : String
  meta : String
  row : Record
deriving DecidableEq

/-- Unicode byte-order mark, as the decoded character the utf-8-sig codec
writes and a plain utf-8 reader returns. -/
def BOM : String := "\uFEFF"

/-- Chunk is the block of rows written to the history log by one `to_csv`
call, tagged with whether the utf-8-sig encoder emitted a BOM immediately
before the block. -/
structure Chunk where
  bom : Bool
  rows : List HistoryRow
deriving DecidableEq

/-- World is the ambient file state: the canonical source file and the
history log, `none` when `records.csv` does not exist; an existing log is the
header line followed by the appended chunks. -/
structure World where
  src : RawCsv
  db : Option (List Chunk)
deriving DecidableEq

/-- Meta models the `meta` dict `{"year": y, "league": lg, "team": tm}` the
caller passes to `snapshot_to_db`. -/
structure Meta where
  year : Int
  league : String
  team : String
deriving DecidableEq

/-- NEEDED_COLS, the required column list of `logic.py`. -/
def NEEDED_COLS : List String :=
  ["Year", "League", "Team", "Games", "Wins", "Losses", "Draws", "WinRate"]

/-- Model of the Python list comprehension
`[c for c in NEEDED_COLS if c not in df.columns]`. -/
def missingCols (cols : List String) : List String :=
  NEEDED_COLS.filter (fun c => !(cols.contains c))

/-- Model of the comma-and-space separated rendering inside a Python list
display (quotes of `repr` omitted). -/
def joinComma : List String → String
  | [] => ""
  | [x] => x
  | x :: y :: t => x ++ ", " ++ joinComma (y :: t)

/-- Model of the f-string rendering of a Python list of column names. -/
def renderCols (xs : List String) : String :=
  "[" ++ joinComma xs ++ "]"

/-- Message of the ValueError raised by `_read_csv_strict`:
`f"CSVの列が不足しています: \x7bmissing\x7d / 期待: \x7bNEEDED_COLS\x7d"`. -/
def strictMsgOf (missing : List String) : String :=
  "CSVの列が不足しています: " ++ renderCols missing ++ " / 期待: " ++ renderCols NEEDED_COLS

/-- Message of the ValueError raised by `import_uploaded_csv`:
`f"アップロードCSVの列が不足: \x7bmissing\x7d"`. -/
def uploadMsgOf (missing : List String) : String :=
  "アップロードCSVの列が不足: " ++ renderCols missing

/-- Predicate for a message naming a column: the column name occurs verbatim
inside the message text. -/
def mentions (msg col : String) : Prop :=
  col.data <:+: msg.data

instance (msg col : String) : Decidable (mentions msg col) :=
  List.decidableInfix col.data msg.data

/-- Model of `_read_csv_strict` on an already-parsed file: validate the
column list, raising the ValueError with its exact message when columns are
missing. -/
def read_csv_strict (f : RawCsv) : Except String RawCsv :=
  let missing := missingCols f.columns
  if missing.isEmpty then Except.ok f else Except.error (strictMsgOf missing)

/-- Model of `Series.clip(0, 1)` on one value. -/
def clip01 (x : Rat) : Rat :=
  min (max x 0) 1

/-- Model of the per-row normalisation of `load_source`: the integer columns
are already typed in the embedding, so only the `WinRate` clamp acts. -/
def normalizeRow (r : Record) : Record :=
  { r with winRate := clip01 r.winRate }

/-- Model of `load_source`: strict read of the source file followed by type
normalisation and the `WinRate` clamp. -/
def load_source (w : World) : Except String Table :=
  match read_csv_strict w.src with
  | Except.error e => Except.error e
  | Except.ok f => Except.ok (f.rows.map normalizeRow)

/-- Model of `import_uploaded_csv`: parse the uploaded bytes (already done in
the `RawCsv` argument), validate the columns, and return the table unchanged;
the `World` is threaded through to make the absence of file effects explicit
in the type. -/
def import_uploaded_csv (upload : RawCsv) (w : World) : Except String Table × World :=
  let missing := missingCols upload.columns
  if missing.isEmpty then (Except.ok upload.rows, w)
  else (Except.error (uploadMsgOf missing), w)

/-- Model of Python truthiness for the optional string selections: `None`
and the empty string are falsy. -/
def truthy : Option String → Bool
  | none => false
  | some s => !(s == "")

/-- Descending order on `WinRate`, the relation `sort_values("WinRate",
ascending=False)` sorts by. -/
def wrGE (a b : Record) : Prop :=
  b.winRate ≤ a.winRate

instance : DecidableRel wrGE :=
  fun a b => inferInstanceAs (Decidable (b.winRate ≤ a.winRate))

instance : IsTotal Record wrGE :=
  ⟨fun a b => le_total b.winRate a.winRate⟩

instance : IsTrans Record wrGE :=
  ⟨fun _ _ _ hab hbc => le_trans hbc hab⟩

/-- Ascending order on `Year`, the relation `sort_values("Year")` sorts by. -/
def yearLE (a b : Record) : Prop :=
  a.year ≤ b.year

instance : DecidableRel yearLE :=
  fun a b => inferInstanceAs (Decidable (a.year ≤ b.year))

instance : IsTotal Record yearLE :=
  ⟨fun a b => le_total a.year b.year⟩

instance : IsTrans Record yearLE :=
  ⟨fun _ _ _ hab hbc => le_trans hab hbc⟩

/-- Model of the code-point lexicographic order Python `sorted` uses on
strings, as a computable comparator on the character lists. -/
def charListLe : List Char → List Char → Bool
  | [], _ => true
  | _ :: _, [] => false
  | a :: as, b :: bs => if a < b then true else if b < a then false else charListLe as bs

/-- Ascending string order used by the `sorted(...)` calls of the query
layer. -/
def strLE (a b : String) : Prop :=
  charListLe a.data b.data = true

instance : DecidableRel strLE :=
  fun a b => inferInstanceAs (Decidable (charListLe a.data b.data = true))

/-- Model of `teams`: optional exact year restriction, truthiness-guarded
league restriction, then sorted distinct team names. -/
def teams (df : Table) (year : Option Int) (league : Option String) : List String :=
  let q : Table := match year with
    | some y => df.filter (fun r => decide (r.year = y))
    | none => df
  let q2 := if truthy league then q.filter (fun r => league == some r.league) else q
  List.insertionSort strLE ((q2.map (fun r => r.team)).dedup)

/-- Guard of the league restriction in `filter_table`:
`if league and league != "全体"`. -/
def leagueActive (league : Option String) : Bool :=
  truthy league && !(league == some "全体")

/-- Guard of the team restriction in `filter_table`:
`if team and team != "（全チーム）"`. -/
def teamActive (team : Option String) : Bool :=
  truthy team && !(team == some "（全チーム）")

/-- Deterministic part of `filter_table` before the final sort: exact year
restriction, then the sentinel-guarded league and team restrictions, exactly
as the code builds `q`. -/
def filter_table_pre (df : Table) (year : Int) (league team : Option String) : Table :=
  let q := df.filter (fun r => decide (r.year = year))
  let q2 := if leagueActive league then q.filter (fun r => league == some r.league) else q
  if teamActive team then q2.filter (fun r => team == some r.team) else q2

/-- Model of `filter_table` as the relation between the input and the
admissible return values. The final `sort_values("WinRate", ascending=False)`
runs with the pandas default quicksort kind, for which pandas documents only
that the rows come back reordered in key order — tie order is unspecified
(only the mergesort and stable kinds are documented stable) — so the model
admits every `WinRate`-descending permutation of the filtered rows. -/
def filter_table (df : Table) (year : Int) (league team : Option String) (out : Table) : Prop :=
  List.Perm out (filter_table_pre df year league team) ∧ List.Sorted wrGE out

instance (df : Table) (year : Int) (league team : Option String) (out : Table) :
    Decidable (filter_table df year league team out) :=
  inferInstanceAs (Decidable
    (List.Perm out (filter_table_pre df year league team) ∧ List.Sorted wrGE out))

/-- Model of `team_trend`: exact team restriction, then a sort by `Year`
ascending; every property proved about it below is independent of the sort
kind. -/
def team_trend (df : Table) (team : String) : Table :=
  List.insertionSort yearLE (df.filter (fun r => r.team == team))

/-- Model of `str(meta)` for the meta dict (quotes of `repr` omitted). -/
def strMeta (m : Meta) : String :=
  "\x7byear: " ++ toString m.year ++ ", league: " ++ m.league ++ ", team: " ++ m.team ++ "\x7d"

/-- Model of `snapshot_to_db`: prepend the one-per-call timestamp and the
serialised meta to every row of the view and append one chunk to the history
log. Creating the log writes the BOM and the header line at stream start
(`bom := true`); appending to the existing log opens the file at a nonzero
position, where CPython TextIOWrapper initialises the utf-8-sig encoder with
its BOM already emitted, so no BOM is written (`bom := false`). -/
def snapshot_to_db (view : Table) (meta : Meta) (stamp : String) (w : World) : World :=
  let out := view.map (fun r => HistoryRow.mk stamp (strMeta meta) r)
  match w.db with
  | some chunks => { w with db := some (chunks ++ [Chunk.mk false out]) }
  | none => { w with db := some [Chunk.mk true out] }

/-- Reading one chunk that does not start the file: a BOM emitted before such
a chunk sits mid-stream, where `read_csv` does not strip it, so it comes back
inside the first cell — the `_saved_at` of the chunk's first row. -/
def taint (c : Chunk) : List HistoryRow :=
  if c.bom then
    match c.rows with
    | [] => []
    | r :: rs => { r with savedAt := BOM ++ r.savedAt } :: rs
  else c.rows

/-- Model of `load_db`: the accumulated history rows, empty when the log file
does not exist. The BOM of the creating chunk sits at stream start where the
pandas CSV parser consumes it, so the first chunk is returned as written;
any BOM before a later chunk would corrupt it as `taint` describes. -/
def load_db (w : World) : List HistoryRow :=
  match w.db with
  | none => []
  | some [] => []
  | some (c0 :: rest) => c0.rows ++ (rest.map taint).flatten

/-- Demonstration that the model expresses the mid-file corruption: a
non-initial chunk written with a BOM would come back with the BOM inside the
first row's `_saved_at`. `snapshot_to_db` never produces such a chunk,
because appends open the log at a nonzero position. -/
theorem taint_true_prepends_bom (stamp ms : String) (r : Record) :
    taint (Chunk.mk true [HistoryRow.mk stamp ms r]) =
      [HistoryRow.mk (BOM ++ stamp) ms r] :=
  rfl

/-- Concrete empty world used by witnesses. -/
def w0 : World :=
  { src := { columns := [], rows := [] }, db := none }

/-- C9: whenever the history log file does not exist, `load_db` returns an
empty table as a normal result rather than failing. -/
theorem load_db_of_no_file (w : World) (h : w.db = none) : load_db w = [] := by
  simp [load_db, h]

/-- Witness for C9 at a concrete world whose history file is absent. -/
theorem load_db_of_no_file_witness : load_db w0 = [] :=
  load_db_of_no_file w0 rfl

/-- C10: passing an empty-string league to `teams` applies no league
restriction at all, because the argument is tested for truthiness; the result
is the same as passing no league. -/
theorem teams_empty_string_league (df : Table) (y : Option Int) :
    teams df y (some "") = teams df y none := by
  simp [teams, truthy]

/-- C8: `import_uploaded_csv` neither writes to persistent storage nor
mutates the canonical source: the world is returned unchanged for every
upload, whether the import fails or succeeds, and a subsequent `load_source`
returns the same table as before the import. -/
theorem import_uploaded_csv_frame (b : RawCsv) (w : World) :
    (import_uploaded_csv b w).2 = w ∧
      load_source (import_uploaded_csv b w).2 = load_source w := by
  have h2 : (import_uploaded_csv b w).2 = w := by
    unfold import_uploaded_csv
    by_cases h : (missingCols b.columns).isEmpty <;> simp [h]
  exact ⟨h2, by rw [h2]⟩

/-- C2: one `snapshot_to_db` call followed by `load_db` returns the previous
history extended by exactly `view.length` rows; the appended suffix is the
view rows each augmented with the one-per-call timestamp and the serialised
meta, so every appended row carries the identical timestamp and meta. -/
theorem load_db_snapshot (view : Table) (meta : Meta) (stamp : String) (w : World) :
    load_db (snapshot_to_db view meta stamp w) =
      load_db w ++ view.map (fun r => HistoryRow.mk stamp (strMeta meta) r) := by
  cases hdb : w.db with
  | none => simp [snapshot_to_db, load_db, hdb, taint]
  | some chunks =>
    cases chunks with
    | nil => simp [snapshot_to_db, load_db, hdb, taint]
    | cons c0 rest =>
      simp [snapshot_to_db, load_db, hdb, taint, List.map_append, List.flatten_append,
        List.append_assoc]

/-- C2: one `snapshot_to_db` call followed by `load_db` returns the previous
history extended by exactly `view.length` rows; the appended suffix is the
view rows each augmented with the one-per-call timestamp and the serialised
meta, so every appended row carries the identical timestamp and meta. -/
theorem snapshot_roundtrip (view : Table) (meta : Meta) (stamp : String) (w : World) :
    (load_db (snapshot_to_db view meta stamp w)).length = (load_db w).length + view.length ∧
      (load_db (snapshot_to_db view meta stamp w)).drop (load_db w).length =
        view.map (fun r => HistoryRow.mk stamp (strMeta meta) r) ∧
      ∀ h ∈ (load_db (snapshot_to_db view meta stamp w)).drop (load_db w).length,
        h.savedAt = stamp ∧ h.meta = strMeta meta := by
  refine ⟨?_, ?_, ?_⟩
  · rw [load_db_snapshot, List.length_append, List.length_map]
  · rw [load_db_snapshot, List.drop_left]
  · intro h hmem
    rw [load_db_snapshot, List.drop_left] at hmem
    rcases List.mem_map.mp hmem with ⟨r, _, hr⟩
    rw [← hr]
    exact ⟨rfl, rfl⟩

/-- Clamp expressed through its nearest-bound case split. -/
theorem clip01_eq_ite (x : Rat) :
    clip01 x = if x < 0 then 0 else if 1 < x then 1 else x := by
  unfold clip01
  rcases lt_or_le x 0 with h | h
  · rw [max_eq_right h.le, if_pos h, min_eq_left]
    norm_num
  · rw [max_eq_left h, if_neg (not_lt.mpr h)]
    rcases lt_or_le 1 x with h1 | h1
    · rw [min_eq_right h1.le, if_pos h1]
    · rw [min_eq_left h1, if_neg (not_lt.mpr h1)]

/-- Clamp output bounds. -/
theorem clip01_mem (x : Rat) : 0 ≤ clip01 x ∧ clip01 x ≤ 1 :=
  ⟨le_min (le_max_right x 0) (by norm_num), min_le_right _ 1⟩

instance : DecidableEq (Except String Table) := fun a b =>
  match a, b with
  | Except.ok x, Except.ok y => decidable_of_iff (x = y) (by simp)
  | Except.error x, Except.error y => decidable_of_iff (x = y) (by simp)
  | Except.ok _, Except.error _ => isFalse (by simp)
  | Except.error _, Except.ok _ => isFalse (by simp)

/-- Rational one half, in kernel-reducible constructor form. -/
def rHalf : Rat := ⟨1, 2, by decide, by decide⟩

/-- Flt models one IEEE float cell of the `WinRate` column: a rational value
or NaN (`none`), the value `read_csv` produces for an empty cell. The
infinities, which `clip(0, 1)` sends to the bounds like any other
out-of-range value, are left out. -/
abbrev Flt := Option Rat

/-- Model of `Series.clip(0, 1)` on a float cell: numeric values clamp, NaN
passes through unchanged (pandas `clip` does not affect NaN). -/
def clipFlt : Flt → Flt
  | none => none
  | some x => some (clip01 x)

/-- Membership of a float cell in `[0, 1]`: IEEE comparisons with NaN are
false, so a NaN cell lies outside every interval. -/
def inUnitInterval : Flt → Prop
  | none => False
  | some x => 0 ≤ x ∧ x ≤ 1

instance (v : Flt) : Decidable (inUnitInterval v) :=
  match v with
  | none => isFalse (fun h => h)
  | some x => inferInstanceAs (Decidable (0 ≤ x ∧ x ≤ 1))

/-- RawRecord is one parsed row of the source file, with the float semantics
of the `WinRate` cell. -/
structure RawRecord where
  year : Int
  league : String
  team : String
  games : Int
  wins : Int
  losses : Int
  draws : Int
  winRate : Flt
deriving DecidableEq

/-- SrcCsv is a parsed source file with float `WinRate` cells. -/
structure SrcCsv where
  columns : List String
  rows : List RawRecord
deriving DecidableEq

/-- Model of `load_source` refined to the float semantics of the `WinRate`
column: the schema check of `_read_csv_strict`, then `astype(float)` (which
keeps NaN) and `clip(0, 1)` (which leaves NaN unchanged). The coarser
`load_source` above is exact for NaN-free files and carries the claims that
only involve such files. -/
def load_source_float (f : SrcCsv) : Except String (List RawRecord) :=
  if (missingCols f.columns).isEmpty then
    Except.ok (f.rows.map (fun r => { r with winRate := clipFlt r.winRate }))
  else Except.error (strictMsgOf (missingCols f.columns))

instance : DecidableEq (Except String (List RawRecord)) := fun a b =>
  match a, b with
  | Except.ok x, Except.ok y => decidable_of_iff (x = y) (by simp)
  | Except.error x, Except.error y => decidable_of_iff (x = y) (by simp)
  | Except.ok _, Except.error _ => isFalse (by simp)
  | Except.error _, Except.ok _ => isFalse (by simp)

/-- Row with an empty (NaN) `WinRate` cell. -/
def nanRow : RawRecord :=
  { year := 2023, league := "セ・リーグ", team := "TeamA", games := 140,
    wins := 80, losses := 58, draws := 2, winRate := none }

/-- Source file containing `nanRow`; it passes the schema check. -/
def nanCsv : SrcCsv :=
  { columns := NEEDED_COLS, rows := [nanRow] }

/-- Counterexample to C3 as stated: a dataset with an empty `WinRate` cell is
accepted by the loader (NaN survives `astype(float)` and `clip(0, 1)`), yet
the returned `WinRate` is NaN, which does not lie in `[0, 1]` and was not
clamped to a bound. -/
theorem load_source_nan_counterexample :
    load_source_float nanCsv = Except.ok [nanRow] ∧ ¬ inUnitInterval nanRow.winRate :=
  ⟨by decide, by decide⟩

/-- C3 amended: on every accepted dataset, every numeric (non-NaN) `WinRate`
of the returned table lies in `[0, 1]`, and the table is exactly the input
rows with every out-of-range numeric `WinRate` replaced by the nearest bound
and every NaN cell passed through unchanged. -/
theorem load_source_float_winrate (f : SrcCsv) (t : List RawRecord)
    (h : load_source_float f = Except.ok t) :
    (∀ r ∈ t, ∀ x : Rat, r.winRate = some x → 0 ≤ x ∧ x ≤ 1) ∧
      t = f.rows.map (fun r =>
        { r with winRate := match r.winRate with
            | none => none
            | some x => some (if x < 0 then 0 else if 1 < x then 1 else x) }) := by
  unfold load_source_float at h
  by_cases hm : (missingCols f.columns).isEmpty
  · simp only [hm, if_true, Except.ok.injEq] at h
    constructor
    · intro r hr x hx
      rw [← h] at hr
      rcases List.mem_map.mp hr with ⟨r0, _, hr0⟩
      rw [← hr0] at hx
      have hx2 : clipFlt r0.winRate = some x := hx
      cases h0 : r0.winRate with
      | none =>
        rw [h0] at hx2
        exact absurd hx2 (by simp [clipFlt])
      | some x0 =>
        rw [h0] at hx2
        have hcl : clip01 x0 = x := by simpa [clipFlt] using hx2
        rw [← hcl]
        exact clip01_mem x0
    · rw [← h]
      apply List.map_congr_left
      intro r _
      cases h0 : r.winRate with
      | none => simp [clipFlt, h0]
      | some x0 => simp [clipFlt, h0, clip01_eq_ite]
  · simp [hm] at h

/-- Source file with out-of-range, NaN, and in-range `WinRate` cells. -/
def fClamp : SrcCsv :=
  { columns := NEEDED_COLS,
    rows := [
      { year := 2023, league := "セ・リーグ", team := "TeamA", games := 140,
        wins := 80, losses := 58, draws := 2, winRate := some 2 },
      { year := 2023, league := "セ・リーグ", team := "TeamB", games := 140,
        wins := 70, losses := 68, draws := 2, winRate := some (-1) },
      { year := 2022, league := "パ・リーグ", team := "TeamC", games := 143,
        wins := 71, losses := 70, draws := 2, winRate := some rHalf },
      nanRow ] }

/-- Expected loader output for `fClamp`: bounds clamped, NaN untouched. -/
def fClampTable : List RawRecord :=
  [ { year := 2023, league := "セ・リーグ", team := "TeamA", games := 140,
      wins := 80, losses := 58, draws := 2, winRate := some 1 },
    { year := 2023, league := "セ・リーグ", team := "TeamB", games := 140,
      wins := 70, losses := 68, draws := 2, winRate := some 0 },
    { year := 2022, league := "パ・リーグ", team := "TeamC", games := 143,
      wins := 71, losses := 70, draws := 2, winRate := some rHalf },
    nanRow ]

/-- Witness for the amended C3 at the concrete source file `fClamp`. -/
theorem load_source_float_winrate_witness :
    (∀ r ∈ fClampTable, ∀ x : Rat, r.winRate = some x → 0 ≤ x ∧ x ≤ 1) ∧
      fClampTable = fClamp.rows.map (fun r =>
        { r with winRate := match r.winRate with
            | none => none
            | some x => some (if x < 0 then 0 else if 1 < x then 1 else x) }) :=
  load_source_float_winrate fClamp fClampTable (by decide)

/-- Combined row predicate of `filter_table`: year matches exactly, and the
league/team restrictions apply only when their guard in the code is active. -/
def rowMatches (year : Int) (league team : Option String) (r : Record) : Bool :=
  decide (r.year = year)
    && (!(leagueActive league) || league == some r.league)
    && (!(teamActive team) || team == some r.team)

/-- Two sequential filters collapse to one filter by the conjunction. -/
theorem filter_comm2 (df : Table) (p1 p2 : Record → Bool) :
    (df.filter p1).filter p2 = df.filter (fun r => p1 r && p2 r) := by
  rw [List.filter_filter]
  apply List.filter_congr
  intro a _
  cases p1 a <;> cases p2 a <;> rfl

/-- Three sequential filters collapse to one filter by the conjunction. -/
theorem filter_comm3 (df : Table) (p1 p2 p3 : Record → Bool) :
    ((df.filter p1).filter p2).filter p3 = df.filter (fun r => p1 r && p2 r && p3 r) := by
  rw [List.filter_filter, List.filter_filter]
  apply List.filter_congr
  intro a _
  cases p1 a <;> cases p2 a <;> cases p3 a <;> rfl

/-- Sequential guarded filters of `filter_table` collapse to one filter by
`rowMatches`. -/
theorem filter_table_eq (df : Table) (y : Int) (lg tm : Option String) :
    filter_table_pre df y lg tm = df.filter (rowMatches y lg tm) := by
  simp only [filter_table_pre]
  cases hL : leagueActive lg with
  | true =>
    cases hT : teamActive tm with
    | true =>
      rw [if_pos rfl, if_pos rfl, filter_comm3]
      apply List.filter_congr
      intro a _
      simp [rowMatches, hL, hT]
    | false =>
      rw [if_neg Bool.false_ne_true, if_pos rfl, filter_comm2]
      apply List.filter_congr
      intro a _
      simp [rowMatches, hL, hT]
  | false =>
    cases hT : teamActive tm with
    | true =>
      rw [if_pos rfl, if_neg Bool.false_ne_true, filter_comm2]
      apply List.filter_congr
      intro a _
      simp [rowMatches, hL, hT]
    | false =>
      rw [if_neg Bool.false_ne_true, if_neg Bool.false_ne_true]
      apply List.filter_congr
      intro a _
      simp [rowMatches, hL, hT]

/-- C1 amended: every admissible `filter_table` result is a permutation of
the single-pass `rowMatches` filter (the year restriction plus the active
league and team restrictions), sorted by `WinRate` descending, and is the
empty table — not an error — when no row matches; the order within equal
`WinRate` classes is left unspecified by the program. -/
theorem filter_table_result_spec (df : Table) (y : Int) (lg tm : Option String) (out : Table)
    (h : filter_table df y lg tm out) :
    List.Perm out (df.filter (rowMatches y lg tm)) ∧
      List.Sorted wrGE out ∧
      (df.filter (rowMatches y lg tm) = [] → out = []) := by
  obtain ⟨hperm, hsort⟩ := h
  rw [filter_table_eq] at hperm
  refine ⟨hperm, hsort, fun hnil => ?_⟩
  rw [hnil] at hperm
  exact hperm.eq_nil

/-- Two rows of the same year tied on `WinRate`, in this original order in
`tiedT`. -/
def tiedA : Record :=
  { year := 2023, league := "セ・リーグ", team := "TeamA", games := 140,
    wins := 70, losses := 70, draws := 0, winRate := rHalf }

/-- Second tied row; see `tiedA`. -/
def tiedB : Record :=
  { year := 2023, league := "パ・リーグ", team := "TeamB", games := 140,
    wins := 70, losses := 70, draws := 0, winRate := rHalf }

/-- Table holding the two tied rows in the order `tiedA`, `tiedB`. -/
def tiedT : Table := [tiedA, tiedB]

/-- Counterexample to C1 as stated: with two rows tied on `WinRate`, the
reversed order is an admissible `filter_table` result (a `WinRate`-descending
reordering of the filtered rows — the default quicksort kind promises no
particular tie order), yet its tie class is not in the original relative
order, so the program does not guarantee the stability the claim asserts. -/
theorem filter_table_stability_counterexample :
    filter_table tiedT 2023 none none [tiedB, tiedA] ∧
      [tiedB, tiedA].filter (fun r => decide (r.winRate = rHalf)) ≠
        tiedT.filter (fun r => decide (r.winRate = rHalf)) :=
  ⟨by decide, by decide⟩

/-- Witness for the amended C1: the original order of the tied rows is one
admissible result, a permutation of the one-pass filter, sorted descending. -/
theorem filter_table_result_spec_witness :
    List.Perm [tiedA, tiedB] (tiedT.filter (rowMatches 2023 none none)) ∧
      List.Sorted wrGE [tiedA, tiedB] ∧
      (tiedT.filter (rowMatches 2023 none none) = [] → [tiedA, tiedB] = []) :=
  filter_table_result_spec tiedT 2023 none none [tiedA, tiedB] (by decide)

/-- Under the two sentinel selections both guarded filters are skipped. -/
theorem filter_table_pre_all_sentinels (df : Table) (y : Int) :
    filter_table_pre df y (some "全体") (some "（全チーム）") =
      df.filter (fun r => decide (r.year = y)) := by
  simp only [filter_table_pre]
  rw [show leagueActive (some "全体") = false from by decide,
    show teamActive (some "（全チーム）") = false from by decide,
    if_neg Bool.false_ne_true, if_neg Bool.false_ne_true]

/-- C6: with the two all-sentinels, every admissible `filter_table` result is
exactly the rows of the given year sorted by `WinRate` descending, and
re-applying `filter_table` with the same year and sentinels to such a result
yields the same set of rows again (a permutation — the program fixes no tie
order, so only the set of rows is preserved). -/
theorem filter_table_sentinels_idem (df : Table) (y : Int) (out1 out2 : Table)
    (h1 : filter_table df y (some "全体") (some "（全チーム）") out1)
    (h2 : filter_table out1 y (some "全体") (some "（全チーム）") out2) :
    List.Perm out1 (df.filter (fun r => decide (r.year = y))) ∧
      List.Sorted wrGE out1 ∧
      List.Perm out2 out1 := by
  obtain ⟨hp1, hs1⟩ := h1
  obtain ⟨hp2, hs2⟩ := h2
  rw [filter_table_pre_all_sentinels] at hp1
  rw [filter_table_pre_all_sentinels] at hp2
  have hfix : out1.filter (fun r => decide (r.year = y)) = out1 := by
    apply List.filter_eq_self.mpr
    intro a ha
    have hmem : a ∈ df.filter (fun r => decide (r.year = y)) := hp1.subset ha
    exact (List.mem_filter.mp hmem).2
  rw [hfix] at hp2
  exact ⟨hp1, hs1, hp2⟩

/-- Witness for C6 at the tied table: both orders of the tie class are
admissible results, and the second application returns the same set. -/
theorem filter_table_sentinels_idem_witness :
    List.Perm [tiedA, tiedB] (tiedT.filter (fun r => decide (r.year = 2023))) ∧
      List.Sorted wrGE [tiedA, tiedB] ∧
      List.Perm [tiedB, tiedA] [tiedA, tiedB] :=
  filter_table_sentinels_idem tiedT 2023 [tiedA, tiedB] [tiedB, tiedA]
    (by decide) (by decide)

/-- C7: `team_trend` returns exactly the rows of the given team (a
permutation of the one-pass filter), sorted by `Year` in non-decreasing
order, and an empty table — not an error — when the team occurs in no row. -/
theorem team_trend_spec (df : Table) (tm : String) :
    List.Perm (team_trend df tm) (df.filter (fun r => r.team == tm)) ∧
      List.Sorted yearLE (team_trend df tm) ∧
      ((∀ r ∈ df, r.team ≠ tm) → team_trend df tm = []) := by
  refine ⟨List.perm_insertionSort yearLE _, List.sorted_insertionSort yearLE _, fun h => ?_⟩
  have hf : df.filter (fun r => r.team == tm) = [] :=
    List.filter_eq_nil_iff.mpr (fun r hr => by simp [h r hr])
  rw [team_trend, hf]
  rfl

/-- Concrete sample table used by the query-layer witnesses. -/
def sampleT : Table :=
  [ { year := 2023, league := "セ・リーグ", team := "TeamA", games := 140,
      wins := 80, losses := 58, draws := 2, winRate := 1 },
    { year := 2023, league := "パ・リーグ", team := "TeamB", games := 140,
      wins := 70, losses := 68, draws := 2, winRate := rHalf },
    { year := 2022, league := "セ・リーグ", team := "TeamC", games := 143,
      wins := 71, losses := 70, draws := 2, winRate := 0 } ]

/-- Witness for C7: the trend of a team absent from the sample table is the
empty table. -/
theorem team_trend_spec_witness : team_trend sampleT "TeamX" = [] :=
  (team_trend_spec sampleT "TeamX").2.2 (by decide)

/-- Rows of the guarded branch of `teams` are rows of the unguarded one. -/
theorem teams_mem_subset_core (q : Table) (p : Record → Bool) (b : Bool) (r : Record)
    (h : r ∈ (if b then q.filter p else q)) : r ∈ q := by
  cases b with
  | false =>
    rw [if_neg Bool.false_ne_true] at h
    exact h
  | true =>
    rw [if_pos rfl] at h
    exact List.mem_of_mem_filter h

/-- C5: the team list under a year and league selection is a subset of the
team list under the year alone, which is a subset of the unrestricted team
list. -/
theorem teams_subset_chain (df : Table) (y : Int) (l : String) :
    (∀ s, s ∈ teams df (some y) (some l) → s ∈ teams df (some y) none) ∧
      (∀ s, s ∈ teams df (some y) none → s ∈ teams df none none) := by
  constructor
  · intro s hs
    simp only [teams, List.mem_insertionSort, List.mem_dedup, List.mem_map] at hs ⊢
    rcases hs with ⟨r, hr, hteam⟩
    refine ⟨r, ?_, hteam⟩
    rw [show truthy none = false from rfl, if_neg Bool.false_ne_true]
    exact teams_mem_subset_core _ _ _ r hr
  · intro s hs
    simp only [teams, List.mem_insertionSort, List.mem_dedup, List.mem_map] at hs ⊢
    rcases hs with ⟨r, hr, hteam⟩
    refine ⟨r, ?_, hteam⟩
    have hr2 : r ∈ df.filter (fun rr => decide (rr.year = y)) :=
      teams_mem_subset_core _ _ _ r hr
    exact List.mem_of_mem_filter hr2

/-- Witness for C5 at the sample table. -/
theorem teams_subset_chain_witness : "TeamA" ∈ teams sampleT (some 2023) none :=
  (teams_subset_chain sampleT 2023 "セ・リーグ").1 "TeamA" (by decide)

/-- Naming is preserved when text is appended on the left. -/
theorem mentions_append_right (a b c : String) (h : mentions b c) : mentions (a ++ b) c := by
  unfold mentions at h ⊢
  rw [String.data_append]
  exact h.trans (List.suffix_append a.data b.data).isInfix

/-- Naming is preserved when text is appended on the right. -/
theorem mentions_append_left (a b c : String) (h : mentions a c) : mentions (a ++ b) c := by
  unfold mentions at h ⊢
  rw [String.data_append]
  exact h.trans (List.prefix_append a.data b.data).isInfix

/-- Every string names itself. -/
theorem mentions_self (s : String) : mentions s s :=
  List.infix_refl s.data

/-- The comma-joined rendering names each of its elements. -/
theorem mentions_joinComma (xs : List String) (c : String) (h : c ∈ xs) :
    mentions (joinComma xs) c := by
  induction xs with
  | nil => cases h
  | cons x t ih =>
    cases t with
    | nil =>
      have hx : c = x := by
        cases List.mem_cons.mp h with
        | inl h1 => exact h1
        | inr h1 => cases h1
      rw [hx]
      exact mentions_self x
    | cons y u =>
      simp only [joinComma]
      cases List.mem_cons.mp h with
      | inl h1 =>
        rw [h1]
        exact mentions_append_left _ _ x (mentions_append_left _ _ x (mentions_self x))
      | inr h1 =>
        exact mentions_append_right _ _ c (ih h1)

/-- The list rendering names each of its elements. -/
theorem mentions_renderCols (xs : List String) (c : String) (h : c ∈ xs) :
    mentions (renderCols xs) c := by
  unfold renderCols
  exact mentions_append_left _ _ c (mentions_append_right _ _ c (mentions_joinComma xs c h))

/-- C4 amended: with missing required columns, the source loader fails with
the message naming both the missing columns and the full expected list, while
the upload importer fails with the message naming only the missing columns;
with nothing missing, neither raises a schema error. -/
theorem schema_error_naming (f : RawCsv) (db0 : Option (List Chunk)) (w : World) :
    (missingCols f.columns = [] →
      load_source { src := f, db := db0 } = Except.ok (f.rows.map normalizeRow) ∧
        (import_uploaded_csv f w).1 = Except.ok f.rows) ∧
    (missingCols f.columns ≠ [] →
      load_source { src := f, db := db0 } = Except.error (strictMsgOf (missingCols f.columns)) ∧
        (import_uploaded_csv f w).1 = Except.error (uploadMsgOf (missingCols f.columns)) ∧
        (∀ c ∈ missingCols f.columns, mentions (strictMsgOf (missingCols f.columns)) c) ∧
        (∀ c ∈ NEEDED_COLS, mentions (strictMsgOf (missingCols f.columns)) c) ∧
        (∀ c ∈ missingCols f.columns, mentions (uploadMsgOf (missingCols f.columns)) c)) := by
  constructor
  · intro h
    have hE : (missingCols f.columns).isEmpty = true := by simp [h]
    constructor
    · unfold load_source read_csv_strict
      simp [hE]
    · unfold import_uploaded_csv
      simp [hE]
  · intro h
    have hE : (missingCols f.columns).isEmpty = false := by
      cases hm : missingCols f.columns with
      | nil => exact absurd hm h
      | cons a t => rfl
    refine ⟨?_, ?_, ?_, ?_, ?_⟩
    · unfold load_source read_csv_strict
      simp [hE]
    · unfold import_uploaded_csv
      simp [hE]
    · intro c hc
      unfold strictMsgOf
      exact mentions_append_left _ _ c (mentions_append_left _ _ c
        (mentions_append_right _ _ c (mentions_renderCols _ c hc)))
    · intro c hc
      unfold strictMsgOf
      exact mentions_append_right _ _ c (mentions_renderCols _ c hc)
    · intro c hc
      unfold uploadMsgOf
      exact mentions_append_right _ _ c (mentions_renderCols _ c hc)

/-- Upload lacking the `Draws` column, used for C4. -/
def noDrawsCsv : RawCsv :=
  { columns := ["Year", "League", "Team", "Games", "Wins", "Losses", "WinRate"], rows := [] }

/-- Counterexample for C4 as stated: the upload importer does fail on a
buffer lacking `Draws`, and its message names the missing column, but it does
not name the expected column `Year`, hence not the full expected list. -/
theorem upload_error_counterexample :
    (import_uploaded_csv noDrawsCsv w0).1 = Except.error (uploadMsgOf ["Draws"]) ∧
      mentions (uploadMsgOf ["Draws"]) "Draws" ∧
      ¬ mentions (uploadMsgOf ["Draws"]) "Year" :=
  ⟨by decide, by decide, by decide⟩

/-- Witness for the amended C4 at the `Draws`-less upload. -/
theorem schema_error_naming_witness :
    load_source { src := noDrawsCsv, db := none } =
        Except.error (strictMsgOf (missingCols noDrawsCsv.columns)) ∧
      (import_uploaded_csv noDrawsCsv w0).1 =
        Except.error (uploadMsgOf (missingCols noDrawsCsv.columns)) ∧
      (∀ c ∈ missingCols noDrawsCsv.columns,
        mentions (strictMsgOf (missingCols noDrawsCsv.columns)) c) ∧
      (∀ c ∈ NEEDED_COLS, mentions (strictMsgOf (missingCols noDrawsCsv.columns)) c) ∧
      (∀ c ∈ missingCols noDrawsCsv.columns,
        mentions (uploadMsgOf (missingCols noDrawsCsv.columns)) c) :=
  (schema_error_naming noDrawsCsv none w0).2 (by decide)
